import Mathlib

/-!
Shallow embedding of the desafio-goexpert exchange-rate service
(`sever.go`) and its companion client (`client/client.go`).

External collaborators (the Go standard library's HTTP client, the
`encoding/json` package, `strconv`, the gorm storage engine and the file
system) are modelled as explicit inputs: each run of a function is
parameterised by the outcomes those collaborators produce.  Everything
that the repository's own code does with those outcomes is translated
line by line from the source.
-/

namespace DesafioGoExpert

/-- A non-nil Go `error` interface value (only its message matters here). -/
structure GoError where
  msg : String
deriving DecidableEq, Repr

/-- The inner anonymous struct of `USDToBRLRate` in `sever.go` (lines 18-30):
eleven string fields with their JSON tags. -/
structure USDBRLFields where
  Code       : String
  Codein     : String
  Name       : String
  High       : String
  Low        : String
  VarBid     : String
  PctChange  : String
  Bid        : String
  Ask        : String
  Timestamp  : String
  CreateDate : String
deriving DecidableEq, Repr

/-- `USDToBRLRate` (`sever.go` lines 17-31, duplicated verbatim in
`client/client.go` lines 13-27): the decoded upstream payload, nested
under the JSON key `USDBRL`. -/
structure USDToBRLRate where
  USDBRL : USDBRLFields
deriving DecidableEq, Repr

/-- The all-empty zero value Go gives a freshly declared `USDToBRLRate`. -/
def emptyFields : USDBRLFields :=
  ⟨"", "", "", "", "", "", "", "", "", "", ""⟩

/-- A JSON value, the abstract result of parsing a response body.  A body
that is not syntactically valid JSON is represented as `Option.none` at
the use sites, so this type only covers well-formed JSON texts. -/
inductive Jsonv where
  | str  (s : String)
  | num  (n : Int)
  | bool (b : Bool)
  | null
  | arr  (xs : List Jsonv)
  | obj  (fields : List (String × Jsonv))

/-- One step of `encoding/json.Unmarshal` into the inner struct: a single
object member `(k, v)` is applied to the current field values.  A key
matching one of the eleven JSON tags sets that field when `v` is a JSON
string, leaves it alone when `v` is JSON `null`, and is a type error
otherwise; unknown keys are ignored.  (Go also matches tags
case-insensitively as a fallback; that leniency is not modelled, which
only shrinks the set of bodies considered well-formed.) -/
def setField (cur : USDBRLFields) (k : String) (v : Jsonv) :
    Except GoError USDBRLFields :=
  let put (upd : String → USDBRLFields) : Except GoError USDBRLFields :=
    match v with
    | Jsonv.str s => Except.ok (upd s)
    | Jsonv.null  => Except.ok cur
    | _           => Except.error ⟨"json: cannot unmarshal value into Go struct field of type string"⟩
  if k = "code" then put (fun s => { cur with Code := s })
  else if k = "codein" then put (fun s => { cur with Codein := s })
  else if k = "name" then put (fun s => { cur with Name := s })
  else if k = "high" then put (fun s => { cur with High := s })
  else if k = "low" then put (fun s => { cur with Low := s })
  else if k = "varBid" then put (fun s => { cur with VarBid := s })
  else if k = "pctChange" then put (fun s => { cur with PctChange := s })
  else if k = "bid" then put (fun s => { cur with Bid := s })
  else if k = "ask" then put (fun s => { cur with Ask := s })
  else if k = "timestamp" then put (fun s => { cur with Timestamp := s })
  else if k = "create_date" then put (fun s => { cur with CreateDate := s })
  else Except.ok cur

/-- `encoding/json.Unmarshal` of a JSON object into the inner struct:
members are processed in order, later duplicates act on the result of
earlier ones (Go decodes in place). -/
def decodeFieldsInto (cur : USDBRLFields) (ms : List (String × Jsonv)) :
    Except GoError USDBRLFields :=
  ms.foldlM (fun c p => setField c p.1 p.2) cur

/-- `json.Unmarshal(body, &rate)` for `rate : USDToBRLRate`
(`sever.go` line 125, `client/client.go` line 58).  `Option.none` stands
for a body that is not valid JSON (a syntax error).  A JSON `null`
unmarshals as a no-op, leaving the zero value; a non-object is a type
error; an object contributes its `USDBRL` members (each must be an
object or `null`) decoded member by member into the inner struct. -/
def goUnmarshalRate : Option Jsonv → Except GoError USDToBRLRate
  | none => Except.error ⟨"invalid character: not valid JSON"⟩
  | some Jsonv.null => Except.ok ⟨emptyFields⟩
  | some (Jsonv.obj ms) =>
      (ms.foldlM
        (fun (cur : USDBRLFields) p =>
          if p.1 = "USDBRL" then
            match p.2 with
            | Jsonv.obj inner => decodeFieldsInto cur inner
            | Jsonv.null      => Except.ok cur
            | _               => Except.error ⟨"json: cannot unmarshal value into Go struct field of type struct"⟩
          else Except.ok cur)
        emptyFields).map (fun f => ⟨f⟩)
  | some _ => Except.error ⟨"json: cannot unmarshal value into Go value of type main.USDToBRLRate"⟩

/-- `encoding/json` marshalling of the inner struct: the eleven fields in
declaration order under their tags. -/
def goMarshalFields (f : USDBRLFields) : Jsonv :=
  Jsonv.obj
    [("code", Jsonv.str f.Code), ("codein", Jsonv.str f.Codein),
     ("name", Jsonv.str f.Name), ("high", Jsonv.str f.High),
     ("low", Jsonv.str f.Low), ("varBid", Jsonv.str f.VarBid),
     ("pctChange", Jsonv.str f.PctChange), ("bid", Jsonv.str f.Bid),
     ("ask", Jsonv.str f.Ask), ("timestamp", Jsonv.str f.Timestamp),
     ("create_date", Jsonv.str f.CreateDate)]

/-- `encoding/json` marshalling of a `USDToBRLRate` value. -/
def goMarshalRate (r : USDToBRLRate) : Jsonv :=
  Jsonv.obj [("USDBRL", goMarshalFields r.USDBRL)]

/-- `json.NewEncoder(w).Encode(rate)` for `rate : *USDToBRLRate`
(`sever.go` line 96): a nil pointer encodes as JSON `null`. -/
def goMarshalRatePtr : Option USDToBRLRate → Jsonv
  | none => Jsonv.null
  | some r => goMarshalRate r

/-- The upstream HTTP response as seen by `GetExchangeRate` once
`http.DefaultClient.Do` has succeeded: a status code and the outcome of
`io.ReadAll` on the body (`Except.ok` carries the body, already split
into valid JSON `some j` / invalid JSON `none`). -/
structure HttpResp where
  StatusCode : Nat
  bodyRead   : Except GoError (Option Jsonv)

/-- The environment of one `GetExchangeRate` call: the outcomes produced
by `http.NewRequestWithContext` and `http.DefaultClient.Do`. -/
structure UpstreamEnv where
  newRequestErr : Option GoError
  doResult      : Except GoError HttpResp

/-- `GetExchangeRate` (`sever.go` lines 99-131).  The pair mirrors the Go
return `(*USDToBRLRate, error)`: a possibly-nil pointer and a
possibly-nil error.  Note the translation of line 116: in the source,
`if resp.StatusCode != http.StatusOK { return nil, err }` executes at a
point where `err` is the nil error left by the successful `Do` call, so
the non-200 branch returns a nil pointer together with a nil error. -/
def GetExchangeRate (env : UpstreamEnv) :
    Option USDToBRLRate × Option GoError :=
  match env.newRequestErr with
  | some e => (none, some e)
  | none =>
    match env.doResult with
    | Except.error e => (none, some e)
    | Except.ok resp =>
      if resp.StatusCode ≠ 200 then
        (none, none)
      else
        match resp.bodyRead with
        | Except.error e => (none, some e)
        | Except.ok body =>
          match goUnmarshalRate body with
          | Except.error e => (none, some e)
          | Except.ok rate => (some rate, none)

/-- The log lines the service emits, one constructor per `log` call site
in `sever.go` (the format strings parameterised by what they embed). -/
inductive LogLine where
  /-- line 75: the fetch-failure log, embedding the error. -/
  | fetchError (e : GoError)
  /-- line 161: the `parseFloat` conversion-failure log, embedding the input. -/
  | convertFloatError (s : String)
  /-- line 152: the `parseTimestamp` conversion-failure log, embedding the input. -/
  | convertIntError (s : String)
  /-- line 88: the fixed success message about data written to the database. -/
  | savedSuccess
  /-- line 91: the fixed timeout message about the 10ms write deadline. -/
  | saveTimeout
deriving DecidableEq, Repr

/-- `parseFloat` (`sever.go` lines 158-165).  `strconv.ParseFloat` is an
external collaborator, passed in as `pf` (`Option.none` = parse error;
float64 values are represented as rationals, which is faithful for the
only facts used here: which value is returned and when it is zero).
Returns the parsed value and the log lines emitted. -/
def parseFloat (pf : String → Option ℚ) (s : String) : ℚ × List LogLine :=
  match pf s with
  | some f => (f, [])
  | none => (0, [LogLine.convertFloatError s])

/-- `parseTimestamp` (`sever.go` lines 149-156).  `strconv.ParseInt` is
passed in as `pint` (`Option.none` = parse error, including int64 range
failures). -/
def parseTimestamp (pint : String → Option ℤ) (s : String) : ℤ × List LogLine :=
  match pint s with
  | some i => (i, [])
  | none => (0, [LogLine.convertIntError s])

/-- `USDToBRLRateDB` (`sever.go` lines 33-40) restricted to the fields the
repository code itself assigns in `SaveExchangeRate`; `ID` and
`CreatedAt` are generated by the storage engine, never by this code. -/
structure USDToBRLRateDB where
  Code      : String
  Bid       : ℚ
  Ask       : ℚ
  Timestamp : ℤ
deriving DecidableEq, Repr

/-- `SaveExchangeRate` (`sever.go` lines 134-147).  `db.Create` is the
external storage engine, passed in as `store` (returning the error of
the insert, nil on success).  The Go argument is a pointer, so the model
takes `Option USDToBRLRate`; line 136 dereferences it (`rate.USDBRL`),
so a nil argument is a runtime panic, modelled as `Except.error ()`.
On the non-panicking path the result records the log lines emitted by
the field conversions, the record handed to `db.Create`, and the error
`SaveExchangeRate` returns (which is exactly the store error). -/
def SaveExchangeRate (pf : String → Option ℚ) (pint : String → Option ℤ)
    (store : USDToBRLRateDB → Option GoError) (rate : Option USDToBRLRate) :
    Except Unit (List LogLine × USDToBRLRateDB × Option GoError) :=
  match rate with
  | none => Except.error ()
  | some r =>
    let (bid, logsBid) := parseFloat pf r.USDBRL.Bid
    let (ask, logsAsk) := parseFloat pf r.USDBRL.Ask
    let (ts, logsTs) := parseTimestamp pint r.USDBRL.Timestamp
    let rateDB : USDToBRLRateDB := ⟨r.USDBRL.Code, bid, ask, ts⟩
    Except.ok (logsBid ++ logsAsk ++ logsTs, rateDB, store rateDB)

/-- Which branch of the `select` at `sever.go` lines 84-92 fires: the 5ms
`time.After` timer (the store call then runs) or the 10ms context
deadline (`ctx.Done()`). -/
inductive RaceOutcome where
  | timerFired
  | ctxDone
deriving DecidableEq, Repr

/-- Observable events of one `GetExchangeRateHandler` invocation, in
program order. -/
inductive Ev where
  /-- `GetExchangeRate` returned this pointer/error pair (line 73). -/
  | fetchReturn (rate : Option USDToBRLRate) (err : Option GoError)
  /-- a `log` call emitted this line. -/
  | logLine (l : LogLine)
  /-- `SaveExchangeRate` was invoked with this pointer (line 86). -/
  | persistBegin (rate : Option USDToBRLRate)
  /-- `SaveExchangeRate` returned this error (nil on store success). -/
  | persistEnd (err : Option GoError)
  /-- the goroutine panicked; nothing further runs, no response is written. -/
  | panicEv
  /-- `w.Header().Set(k, v)` (line 94). -/
  | setHeader (k v : String)
  /-- `w.WriteHeader(status)` (lines 69, 76, 95). -/
  | writeHeader (status : Nat)
  /-- the JSON body written by the encoder (line 96). -/
  | writeBody (j : Jsonv)

/-- The environment of one handler invocation: the request path, the
upstream outcomes, and which side of the persistence race fires. -/
structure HandlerEnv where
  path     : String
  upstream : UpstreamEnv
  race     : RaceOutcome

/-- The response tail of the handler (`sever.go` lines 94-96): content
type, status 200, and the encoded quote (JSON `null` for a nil pointer). -/
def respEvs (rate : Option USDToBRLRate) : List Ev :=
  [Ev.setHeader ("Content-Type") ("application/json"), Ev.writeHeader 200,
   Ev.writeBody (goMarshalRatePtr rate)]

/-- `GetExchangeRateHandler` (`sever.go` lines 67-97) as the trace of
events it produces.  Line 68 rejects other paths with 404; a fetch error
logs and answers 500 with an empty body (lines 74-78); otherwise the
`select` either runs `SaveExchangeRate` (logging the success message
only when it returns a non-nil error — the condition on line 87 is
`err != nil`) or logs the timeout message (lines 84-92); finally lines
94-96 write the response. -/
def GetExchangeRateHandler (pf : String → Option ℚ) (pint : String → Option ℤ)
    (store : USDToBRLRateDB → Option GoError) (env : HandlerEnv) : List Ev :=
  if env.path ≠ ("/cotacao") then [Ev.writeHeader 404]
  else
    match GetExchangeRate env.upstream with
    | (rate, some e) =>
        [Ev.fetchReturn rate (some e), Ev.logLine (LogLine.fetchError e),
         Ev.writeHeader 500]
    | (rate, none) =>
        Ev.fetchReturn rate none ::
        (match env.race with
         | RaceOutcome.timerFired =>
             match SaveExchangeRate pf pint store rate with
             | Except.error _ => [Ev.persistBegin rate, Ev.panicEv]
             | Except.ok (logs, _, serr) =>
                 Ev.persistBegin rate ::
                   (logs.map Ev.logLine ++ [Ev.persistEnd serr] ++
                    (if serr.isSome then [Ev.logLine LogLine.savedSuccess] else []) ++
                    respEvs rate)
         | RaceOutcome.ctxDone =>
             Ev.logLine LogLine.saveTimeout :: respEvs rate)

/-- The status code of the first `WriteHeader` in a trace (Go ignores
later calls). -/
def statusWritten : List Ev → Option Nat
  | [] => none
  | Ev.writeHeader s :: _ => some s
  | _ :: t => statusWritten t

/-- The value of the first `Content-Type` header set in a trace. -/
def ctHeader : List Ev → Option String
  | [] => none
  | Ev.setHeader k v :: t => if k = "Content-Type" then some v else ctHeader t
  | _ :: t => ctHeader t

/-- The first body written in a trace. -/
def bodyWritten : List Ev → Option Jsonv
  | [] => none
  | Ev.writeBody j :: _ => some j
  | _ :: t => bodyWritten t

/-- The service response as seen by the Local Client once
`http.DefaultClient.Do` has succeeded (`client/client.go` line 39). -/
structure ClientResp where
  StatusCode : Nat
  bodyRead   : Except GoError (Option Jsonv)

/-- The environment of one Local Client run: the outcomes produced by
`http.NewRequestWithContext`, `http.DefaultClient.Do`, `os.Create` and
`File.WriteString`. -/
structure ClientEnv where
  newRequestErr : Option GoError
  doResult      : Except GoError ClientResp
  createErr     : Option GoError
  writeErr      : Option GoError

/-- The diagnostics the Local Client prints to stderr, one constructor
per `fmt.Fprintf(os.Stderr, ...)` call site in `client/client.go`.  The
request-error diagnostic embeds an `Option GoError` because the non-2xx
branch (line 47) prints the `err` variable, which is nil there. -/
inductive Diag where
  | requestError (e : Option GoError)
  | readError (e : GoError)
  | parseError (e : GoError)
  | createError (e : GoError)
  | writeError (e : GoError)
deriving DecidableEq, Repr

/-- The observable outcome of one Local Client run: the process exit
code, the diagnostics printed to stderr, and the final content of
`cotacao.txt` (`Option.none` = the file does not exist). -/
structure ClientOutcome where
  exitCode : Nat
  stderr   : List Diag
  file     : Option String

/-- `main` of `client/client.go` (lines 29-78), as a function of the
collaborator outcomes and the prior content of `cotacao.txt`.  Each
failure branch prints its diagnostic and exits with code 1
(`os.Exit(1)`).  `os.Create` truncates the file to empty before any
write happens; a failed `WriteString` therefore leaves the truncated
(empty) file behind.  A run that reaches the end of `main` exits 0. -/
def clientMain (env : ClientEnv) (initFile : Option String) : ClientOutcome :=
  match env.newRequestErr with
  | some e => ⟨1, [Diag.requestError (some e)], initFile⟩
  | none =>
    match env.doResult with
    | Except.error e => ⟨1, [Diag.requestError (some e)], initFile⟩
    | Except.ok resp =>
      if resp.StatusCode ≠ 200 then
        ⟨1, [Diag.requestError none], initFile⟩
      else
        match resp.bodyRead with
        | Except.error e => ⟨1, [Diag.readError e], initFile⟩
        | Except.ok body =>
          match goUnmarshalRate body with
          | Except.error e => ⟨1, [Diag.parseError e], initFile⟩
          | Except.ok rate =>
            match env.createErr with
            | some e => ⟨1, [Diag.createError e], initFile⟩
            | none =>
              match env.writeErr with
              | some e => ⟨1, [Diag.writeError e], some ""⟩
              | none =>
                ⟨0, [], some ("Dolar: \x7b" ++ rate.USDBRL.Bid ++ "\x7d")⟩

/-- Response-writing events: the events produced by `sever.go` lines
94-96 (and the `WriteHeader` calls of the error paths). -/
def isRespEv : Ev → Bool
  | Ev.setHeader _ _ => true
  | Ev.writeHeader _ => true
  | Ev.writeBody _ => true
  | _ => false

/-! ## Helper lemmas -/

lemma parseFloat_eq (pf : String → Option ℚ) (s : String) :
    parseFloat pf s
      = ((pf s).getD 0,
         if (pf s).isSome then [] else [LogLine.convertFloatError s]) := by
  cases h : pf s <;> simp [parseFloat, h]

lemma parseTimestamp_eq (pint : String → Option ℤ) (s : String) :
    parseTimestamp pint s
      = ((pint s).getD 0,
         if (pint s).isSome then [] else [LogLine.convertIntError s]) := by
  cases h : pint s <;> simp [parseTimestamp, h]

lemma parseFloat_logs (pf : String → Option ℚ) (s : String) :
    ∀ l ∈ (parseFloat pf s).2, l = LogLine.convertFloatError s := by
  cases h : pf s <;> simp [parseFloat, h]

lemma parseTimestamp_logs (pint : String → Option ℤ) (s : String) :
    ∀ l ∈ (parseTimestamp pint s).2, l = LogLine.convertIntError s := by
  cases h : pint s <;> simp [parseTimestamp, h]

/-- `SaveExchangeRate` on a non-nil pointer never panics and is fully
characterised by its parsed fields and the store outcome. -/
lemma SaveExchangeRate_some (pf : String → Option ℚ) (pint : String → Option ℤ)
    (store : USDToBRLRateDB → Option GoError) (r : USDToBRLRate) :
    SaveExchangeRate pf pint store (some r)
      = Except.ok
          ((parseFloat pf r.USDBRL.Bid).2 ++ (parseFloat pf r.USDBRL.Ask).2 ++
             (parseTimestamp pint r.USDBRL.Timestamp).2,
           ⟨r.USDBRL.Code, (parseFloat pf r.USDBRL.Bid).1,
            (parseFloat pf r.USDBRL.Ask).1,
            (parseTimestamp pint r.USDBRL.Timestamp).1⟩,
           store ⟨r.USDBRL.Code, (parseFloat pf r.USDBRL.Bid).1,
            (parseFloat pf r.USDBRL.Ask).1,
            (parseTimestamp pint r.USDBRL.Timestamp).1⟩) :=
  rfl

lemma statusWritten_skip (t1 t2 : List Ev) (h : ∀ e ∈ t1, isRespEv e = false) :
    statusWritten (t1 ++ t2) = statusWritten t2 := by
  induction t1 with
  | nil => rfl
  | cons e t ih =>
    have he := h e (by simp)
    have ht : ∀ x ∈ t, isRespEv x = false := fun x hx => h x (by simp [hx])
    cases e <;> simp_all [statusWritten, isRespEv]

lemma ctHeader_skip (t1 t2 : List Ev) (h : ∀ e ∈ t1, isRespEv e = false) :
    ctHeader (t1 ++ t2) = ctHeader t2 := by
  induction t1 with
  | nil => rfl
  | cons e t ih =>
    have he := h e (by simp)
    have ht : ∀ x ∈ t, isRespEv x = false := fun x hx => h x (by simp [hx])
    cases e <;> simp_all [ctHeader, isRespEv]

lemma bodyWritten_skip (t1 t2 : List Ev) (h : ∀ e ∈ t1, isRespEv e = false) :
    bodyWritten (t1 ++ t2) = bodyWritten t2 := by
  induction t1 with
  | nil => rfl
  | cons e t ih =>
    have he := h e (by simp)
    have ht : ∀ x ∈ t, isRespEv x = false := fun x hx => h x (by simp [hx])
    cases e <;> simp_all [bodyWritten, isRespEv]

lemma mem_ite_singleton {c : Prop} [Decidable c] {x e : Ev}
    (h : e ∈ (if c then [x] else ([] : List Ev))) : e = x := by
  by_cases hc : c
  · simp [hc] at h
    exact h
  · simp [hc] at h

/-- Properties of the committed race segment (the 5ms timer branch with a
non-nil Quote): it contains no response-writing event, it contains the
`persistEnd` event, and it does not contain the timeout log line. -/
lemma committedSeg_props (rate : Option USDToBRLRate) (logs : List LogLine)
    (serr : Option GoError) (hlogs : ∀ l ∈ logs, l ≠ LogLine.saveTimeout) :
    (∀ e ∈ Ev.persistBegin rate :: (logs.map Ev.logLine ++ [Ev.persistEnd serr] ++
        (if serr.isSome then [Ev.logLine LogLine.savedSuccess] else [])),
      isRespEv e = false)
    ∧ Ev.persistEnd serr ∈ Ev.persistBegin rate ::
        (logs.map Ev.logLine ++ [Ev.persistEnd serr] ++
         (if serr.isSome then [Ev.logLine LogLine.savedSuccess] else []))
    ∧ Ev.logLine LogLine.saveTimeout ∉ Ev.persistBegin rate ::
        (logs.map Ev.logLine ++ [Ev.persistEnd serr] ++
         (if serr.isSome then [Ev.logLine LogLine.savedSuccess] else [])) := by
  refine ⟨?_, ?_, ?_⟩
  · intro e he
    rcases List.mem_cons.1 he with rfl | he
    · rfl
    rcases List.mem_append.1 he with he | hite
    · rcases List.mem_append.1 he with he | he
      · rcases List.mem_map.1 he with ⟨l, _, rfl⟩
        rfl
      · rcases List.mem_singleton.1 he with rfl
        rfl
    · rcases mem_ite_singleton hite with rfl
      rfl
  · exact List.mem_cons_of_mem _
      (List.mem_append_left _ (List.mem_append_right _ (List.mem_singleton_self _)))
  · intro hmem
    rcases List.mem_cons.1 hmem with hc | hmem
    · exact Ev.noConfusion hc
    rcases List.mem_append.1 hmem with hmem | hite
    · rcases List.mem_append.1 hmem with hmem | hmem
      · rcases List.mem_map.1 hmem with ⟨l, hl, he⟩
        exact hlogs l hl (Ev.logLine.inj he)
      · rcases List.mem_singleton.1 hmem with hc
        exact Ev.noConfusion hc
    · exact LogLine.noConfusion (Ev.logLine.inj (mem_ite_singleton hite))

/-- The log lines emitted while converting a Quote for persistence are
conversion-failure lines only; in particular none of them is the
timeout line. -/
lemma saveLogs_ne_timeout (pf : String → Option ℚ) (pint : String → Option ℤ)
    (r : USDToBRLRate) :
    ∀ l ∈ (parseFloat pf r.USDBRL.Bid).2 ++ (parseFloat pf r.USDBRL.Ask).2 ++
        (parseTimestamp pint r.USDBRL.Timestamp).2,
      l ≠ LogLine.saveTimeout := by
  intro l hl
  rcases List.mem_append.1 hl with hl2 | hl2
  · rcases List.mem_append.1 hl2 with hl3 | hl3
    · rw [parseFloat_logs pf _ _ hl3]
      exact fun hc => LogLine.noConfusion hc
    · rw [parseFloat_logs pf _ _ hl3]
      exact fun hc => LogLine.noConfusion hc
  · rw [parseTimestamp_logs pint _ _ hl2]
    exact fun hc => LogLine.noConfusion hc

/-- Decomposition of a successful-fetch handler run: the trace is the
fetch return, followed by the race segment (which contains no
response-writing event), followed by the fixed response tail computed
from the fetched Quote alone; and the race segment either completed the
store call (a `persistEnd` event, no timeout log) or abandoned it (the
timeout log, no `persistEnd` event). -/
lemma handler_success_decomp (pf : String → Option ℚ) (pint : String → Option ℤ)
    (store : USDToBRLRateDB → Option GoError) (race : RaceOutcome)
    (up : UpstreamEnv) (r : USDToBRLRate)
    (h : GetExchangeRate up = (some r, none)) :
    ∃ raceEvs : List Ev,
      GetExchangeRateHandler pf pint store ⟨"/cotacao", up, race⟩
        = Ev.fetchReturn (some r) none :: (raceEvs ++ respEvs (some r))
      ∧ (∀ e ∈ raceEvs, isRespEv e = false)
      ∧ (((∃ serr, Ev.persistEnd serr ∈ raceEvs)
            ∧ Ev.logLine LogLine.saveTimeout ∉ raceEvs)
         ∨ (Ev.logLine LogLine.saveTimeout ∈ raceEvs
            ∧ ∀ serr, Ev.persistEnd serr ∉ raceEvs)) := by
  cases race with
  | ctxDone =>
    refine ⟨[Ev.logLine LogLine.saveTimeout], ?_, ?_, ?_⟩
    · simp [GetExchangeRateHandler, h]
    · intro e he
      rcases List.mem_singleton.1 he with rfl
      rfl
    · right
      refine ⟨List.mem_singleton_self _, fun serr hc => ?_⟩
      rcases List.mem_singleton.1 hc with hc2
      exact Ev.noConfusion hc2
  | timerFired =>
    obtain ⟨hresp, hpe, hnot⟩ :=
      committedSeg_props (some r)
        ((parseFloat pf r.USDBRL.Bid).2 ++ (parseFloat pf r.USDBRL.Ask).2 ++
          (parseTimestamp pint r.USDBRL.Timestamp).2)
        (store ⟨r.USDBRL.Code, (parseFloat pf r.USDBRL.Bid).1,
          (parseFloat pf r.USDBRL.Ask).1, (parseTimestamp pint r.USDBRL.Timestamp).1⟩)
        (saveLogs_ne_timeout pf pint r)
    refine ⟨_, ?_, hresp, Or.inl ⟨⟨_, hpe⟩, hnot⟩⟩
    simp [GetExchangeRateHandler, h, SaveExchangeRate_some, List.append_assoc]

/-! ## Concrete sample data used by evaluation theorems and witnesses -/

/-- A concrete decoded Quote, matching the end-to-end scenario of the
specification (bid `5.4321`, ask `5.4325`, timestamp `1700000000`). -/
def sampleQuote : USDToBRLRate :=
  ⟨⟨"USD", "BRL", "Dolar Americano", "5.50", "5.30", "0.01", "0.2",
    "5.4321", "5.4325", "1700000000", "2023-11-14 10:00:00"⟩⟩

/-- An upstream environment in which the request is built, the GET
succeeds with status 200, and the body is the JSON encoding of `r`. -/
def okUpstream (r : USDToBRLRate) : UpstreamEnv :=
  ⟨none, Except.ok ⟨200, Except.ok (some (goMarshalRate r))⟩⟩

/-! ## Claims -/

/-- C1: the claim says that for every upstream response with a non-2xx
status, `GetExchangeRate` returns an error (kind BadStatus) and never
returns both a nil Quote and a nil error.  The code violates this: at
`sever.go` line 116 the non-200 branch executes `return nil, err` at a
point where `err` is the nil error left by the successful `Do` call, so
a status-404 response makes `GetExchangeRate` return a nil Quote
together with a nil error.  This theorem evaluates the model at that
failing input. -/
theorem getExchangeRate_non2xx_returns_nil_nil :
    GetExchangeRate ⟨none, Except.ok ⟨404, Except.ok none⟩⟩ = (none, none) :=
  rfl

/-- C3: the claim says that whenever `GetExchangeRate` returns a nil
error the returned Quote pointer is non-nil, so downstream dereferences
cannot panic.  The code violates this through the same slip as C1: on a
non-200 status (here 500) both components are nil, and the handler then
passes the nil pointer to `SaveExchangeRate`, whose field access
panics.  This theorem evaluates the model at that failing input. -/
theorem getExchangeRate_nil_error_with_nil_quote :
    (GetExchangeRate ⟨none, Except.ok ⟨500, Except.ok none⟩⟩).2 = none ∧
    (GetExchangeRate ⟨none, Except.ok ⟨500, Except.ok none⟩⟩).1 = none :=
  ⟨rfl, rfl⟩

/-- C2: the claim says a persistence attempt is made only when the fetch
returned a successfully decoded Quote.  The code violates this: when
the upstream answers a non-2xx status, `GetExchangeRate` returns
(nil, nil), the handler takes the no-error path, and if the 5ms timer
branch of the `select` fires it invokes `SaveExchangeRate` with a nil
Quote, which panics on the dereference at `sever.go` line 136 — a
persistence attempt without a decoded Quote, and no response at all.
This theorem evaluates the handler trace at that failing input.  (The
other half of the claim — a genuine fetch *error* yields 500 with no
persistence — does hold, but the claim as a whole fails.) -/
theorem handler_persist_attempt_without_quote :
    GetExchangeRateHandler (fun _ => none) (fun _ => none) (fun _ => none)
      ⟨"/cotacao", ⟨none, Except.ok ⟨502, Except.ok none⟩⟩, RaceOutcome.timerFired⟩
      = [Ev.fetchReturn none none, Ev.persistBegin none, Ev.panicEv] :=
  rfl

/-- C4: the claim says the attempt is logged as a success whenever the
store call begins and completes before the deadline, in particular the
success line is emitted both when the store succeeds and when it
errors.  The code inverts this: `sever.go` line 87 guards the success
log with `err != nil`, so a store call that *succeeds* (returns a nil
error) logs nothing, while a store call that *fails* logs the success
message.  First conjunct: store succeeds, trace contains no
`savedSuccess` line.  Second conjunct: store fails, trace contains the
`savedSuccess` line. -/
theorem handler_success_log_only_on_store_error :
    (GetExchangeRateHandler (fun _ => some 1) (fun _ => some 1) (fun _ => none)
        ⟨"/cotacao", okUpstream sampleQuote, RaceOutcome.timerFired⟩
      = [Ev.fetchReturn (some sampleQuote) none, Ev.persistBegin (some sampleQuote),
         Ev.persistEnd none] ++ respEvs (some sampleQuote)) ∧
    (GetExchangeRateHandler (fun _ => some 1) (fun _ => some 1)
        (fun _ => some ⟨"insert failed"⟩)
        ⟨"/cotacao", okUpstream sampleQuote, RaceOutcome.timerFired⟩
      = [Ev.fetchReturn (some sampleQuote) none, Ev.persistBegin (some sampleQuote),
         Ev.persistEnd (some ⟨"insert failed"⟩), Ev.logLine LogLine.savedSuccess]
        ++ respEvs (some sampleQuote)) :=
  ⟨rfl, rfl⟩

/-- C5: for every request whose fetch succeeds, the response is status
200 with Content-Type `application/json` and body the JSON serialization
of the fetched Quote — identically for every persistence outcome: the
race branch (`race`) and the storage outcome (`store`) are universally
quantified and do not appear in the conclusion. -/
theorem handler_response_independent_of_persistence
    (pf : String → Option ℚ) (pint : String → Option ℤ)
    (store : USDToBRLRateDB → Option GoError) (race : RaceOutcome)
    (up : UpstreamEnv) (r : USDToBRLRate)
    (h : GetExchangeRate up = (some r, none)) :
    statusWritten (GetExchangeRateHandler pf pint store ⟨"/cotacao", up, race⟩)
      = some 200
    ∧ ctHeader (GetExchangeRateHandler pf pint store ⟨"/cotacao", up, race⟩)
      = some ("application/json")
    ∧ bodyWritten (GetExchangeRateHandler pf pint store ⟨"/cotacao", up, race⟩)
      = some (goMarshalRate r) := by
  obtain ⟨raceEvs, ht, hrespFree, _⟩ := handler_success_decomp pf pint store race up r h
  rw [ht]
  refine ⟨?_, ?_, ?_⟩
  · show statusWritten (raceEvs ++ respEvs (some r)) = some 200
    rw [statusWritten_skip _ _ hrespFree]
    rfl
  · show ctHeader (raceEvs ++ respEvs (some r)) = some ("application/json")
    rw [ctHeader_skip _ _ hrespFree]
    rfl
  · show bodyWritten (raceEvs ++ respEvs (some r)) = some (goMarshalRate r)
    rw [bodyWritten_skip _ _ hrespFree]
    rfl

/-- Witness for C5: a concrete request in which the upstream answers 200
with the encoding of `sampleQuote` and the persistence race is lost. -/
theorem handler_response_independent_of_persistence_witness :
    statusWritten (GetExchangeRateHandler (fun _ => none) (fun _ => none) (fun _ => none)
        ⟨"/cotacao", okUpstream sampleQuote, RaceOutcome.ctxDone⟩)
      = some 200
    ∧ ctHeader (GetExchangeRateHandler (fun _ => none) (fun _ => none) (fun _ => none)
        ⟨"/cotacao", okUpstream sampleQuote, RaceOutcome.ctxDone⟩)
      = some ("application/json")
    ∧ bodyWritten (GetExchangeRateHandler (fun _ => none) (fun _ => none) (fun _ => none)
        ⟨"/cotacao", okUpstream sampleQuote, RaceOutcome.ctxDone⟩)
      = some (goMarshalRate sampleQuote) :=
  handler_response_independent_of_persistence (fun _ => none) (fun _ => none)
    (fun _ => none) RaceOutcome.ctxDone (okUpstream sampleQuote) sampleQuote rfl

/-- C6: for every request with a successful fetch, the handler trace is
the fetch return, then a race segment, then the response tail.  The race
segment resolves to exactly one of the two outcomes: either the store
call completed (a `persistEnd` event, and no timeout log) or the
deadline fired (the timeout log, and no `persistEnd` event) — never
both, never neither.  Persistence events occur only inside the race
segment, which sits strictly after the fetch return; the response events
sit strictly after the race segment and no response event occurs inside
it; and the response content `respEvs (some r)` is a function of the
fetched Quote alone, fixed before persistence begins. -/
theorem handler_race_single_outcome_and_ordering
    (pf : String → Option ℚ) (pint : String → Option ℤ)
    (store : USDToBRLRateDB → Option GoError) (race : RaceOutcome)
    (up : UpstreamEnv) (r : USDToBRLRate)
    (h : GetExchangeRate up = (some r, none)) :
    ∃ raceEvs : List Ev,
      GetExchangeRateHandler pf pint store ⟨"/cotacao", up, race⟩
        = Ev.fetchReturn (some r) none :: (raceEvs ++ respEvs (some r))
      ∧ (∀ e ∈ raceEvs, isRespEv e = false)
      ∧ (((∃ serr, Ev.persistEnd serr ∈ raceEvs)
            ∧ Ev.logLine LogLine.saveTimeout ∉ raceEvs)
         ∨ (Ev.logLine LogLine.saveTimeout ∈ raceEvs
            ∧ ∀ serr, Ev.persistEnd serr ∉ raceEvs)) :=
  handler_success_decomp pf pint store race up r h

/-- Witness for C6: the concrete committed run — upstream answers 200
with the encoding of `sampleQuote`, the 5ms timer fires first, the store
succeeds. -/
theorem handler_race_single_outcome_and_ordering_witness :
    ∃ raceEvs : List Ev,
      GetExchangeRateHandler (fun _ => some 1) (fun _ => some 1) (fun _ => none)
          ⟨"/cotacao", okUpstream sampleQuote, RaceOutcome.timerFired⟩
        = Ev.fetchReturn (some sampleQuote) none :: (raceEvs ++ respEvs (some sampleQuote))
      ∧ (∀ e ∈ raceEvs, isRespEv e = false)
      ∧ (((∃ serr, Ev.persistEnd serr ∈ raceEvs)
            ∧ Ev.logLine LogLine.saveTimeout ∉ raceEvs)
         ∨ (Ev.logLine LogLine.saveTimeout ∈ raceEvs
            ∧ ∀ serr, Ev.persistEnd serr ∉ raceEvs)) :=
  handler_race_single_outcome_and_ordering (fun _ => some 1) (fun _ => some 1)
    (fun _ => none) RaceOutcome.timerFired (okUpstream sampleQuote) sampleQuote rfl

/-- C7: converting a Quote to a StoredRate is total and per-field
lenient: `SaveExchangeRate` on a non-nil Quote never panics, each of
bid/ask/timestamp independently degrades to 0 exactly when its string
fails to parse (and only that field — the others keep their parsed
values and the code field is copied verbatim), each failure is logged
per field, and the store call still proceeds with the resulting record
(`serr = store rec`). -/
theorem save_lenient_per_field (pf : String → Option ℚ) (pint : String → Option ℤ)
    (store : USDToBRLRateDB → Option GoError) (r : USDToBRLRate) :
    ∃ logs rec serr,
      SaveExchangeRate pf pint store (some r) = Except.ok (logs, rec, serr)
      ∧ rec.Code = r.USDBRL.Code
      ∧ rec.Bid = (pf r.USDBRL.Bid).getD 0
      ∧ rec.Ask = (pf r.USDBRL.Ask).getD 0
      ∧ rec.Timestamp = (pint r.USDBRL.Timestamp).getD 0
      ∧ serr = store rec
      ∧ (pf r.USDBRL.Bid = none → LogLine.convertFloatError r.USDBRL.Bid ∈ logs)
      ∧ (pf r.USDBRL.Ask = none → LogLine.convertFloatError r.USDBRL.Ask ∈ logs)
      ∧ (pint r.USDBRL.Timestamp = none →
          LogLine.convertIntError r.USDBRL.Timestamp ∈ logs) := by
  refine ⟨_, _, _, SaveExchangeRate_some pf pint store r, rfl, ?_, ?_, ?_, rfl,
    ?_, ?_, ?_⟩
  · simp [parseFloat_eq]
  · simp [parseFloat_eq]
  · simp [parseTimestamp_eq]
  · intro h0
    simp [parseFloat_eq, h0]
  · intro h0
    simp [parseFloat_eq, h0]
  · intro h0
    simp [parseTimestamp_eq, h0]

/-- Witness for C7: a Quote none of whose numeric strings parses — the
record still reaches the store, with all three fields degraded to 0 and
the bid failure logged. -/
theorem save_lenient_per_field_witness :
    ∃ logs rec serr,
      SaveExchangeRate (fun _ => none) (fun _ => none) (fun _ => none)
          (some sampleQuote)
        = Except.ok (logs, rec, serr)
      ∧ rec.Bid = 0 ∧ rec.Ask = 0 ∧ rec.Timestamp = 0
      ∧ LogLine.convertFloatError ("5.4321") ∈ logs := by
  obtain ⟨logs, rec, serr, h1, _, h3, h4, h5, _, h7, _, _⟩ :=
    save_lenient_per_field (fun _ => none) (fun _ => none) (fun _ => none) sampleQuote
  exact ⟨logs, rec, serr, h1, by rw [h3]; rfl, by rw [h4]; rfl, by rw [h5]; rfl,
    h7 rfl⟩

/-- C8: for every well-formed upstream body (one that decodes to a
Quote), re-encoding the decoded Quote and decoding it again yields the
very same Quote — every string field survives the decode → encode round
trip unchanged. -/
theorem quote_json_roundtrip (j : Jsonv) (q : USDToBRLRate)
    (h : goUnmarshalRate (some j) = Except.ok q) :
    goUnmarshalRate (some (goMarshalRate q)) = Except.ok q := by
  obtain ⟨⟨c1, c2, c3, c4, c5, c6, c7, c8, c9, c10, c11⟩⟩ := q
  rfl

/-- Witness for C8 at the concrete `sampleQuote` body. -/
theorem quote_json_roundtrip_witness :
    goUnmarshalRate (some (goMarshalRate sampleQuote)) = Except.ok sampleQuote :=
  quote_json_roundtrip (goMarshalRate sampleQuote) sampleQuote rfl

/-- C9: a successful Local Client run — the service answers 200 with a
body that decodes to a Quote, and both file operations succeed — writes
exactly the single line `Dolar: {bid}` to `cotacao.txt` (the prior
content `init` is universally quantified and absent from the result:
whatever was there is overwritten) and exits with code 0, printing no
diagnostic. -/
theorem client_success_writes_bid (env : ClientEnv) (init : Option String)
    (resp : ClientResp) (q : USDToBRLRate)
    (h1 : env.newRequestErr = none) (h2 : env.doResult = Except.ok resp)
    (h3 : resp.StatusCode = 200)
    (h4 : ∃ body, resp.bodyRead = Except.ok body ∧ goUnmarshalRate body = Except.ok q)
    (h5 : env.createErr = none) (h6 : env.writeErr = none) :
    clientMain env init
      = ⟨0, [], some ("Dolar: \x7b" ++ q.USDBRL.Bid ++ "\x7d")⟩ := by
  obtain ⟨body, hb, hq⟩ := h4
  simp [clientMain, h1, h2, h3, hb, hq, h5, h6]

/-- Witness for C9: against a service returning the `sampleQuote` body
(bid `5.4321`), the client overwrites the prior file content with
exactly `Dolar: {5.4321}` and exits 0. -/
theorem client_success_writes_bid_witness :
    clientMain
        ⟨none, Except.ok ⟨200, Except.ok (some (goMarshalRate sampleQuote))⟩,
         none, none⟩
        (some ("old content"))
      = ⟨0, [], some ("Dolar: \x7b5.4321\x7d")⟩ :=
  client_success_writes_bid _ (some ("old content"))
    ⟨200, Except.ok (some (goMarshalRate sampleQuote))⟩ sampleQuote rfl rfl rfl
    ⟨some (goMarshalRate sampleQuote), rfl, rfl⟩ rfl rfl

/-- C10 counterexample: the claim says every failing run leaves the
output file unmutated beyond what a prior successful run left.  Here is
a failing run (the `WriteString` call errors) that exits 1 with a
diagnostic, yet the file no longer holds the prior content: `os.Create`
at `client/client.go` line 65 already truncated it to empty before the
write was attempted, so failure is not atomic with respect to the
file. -/
theorem client_write_failure_mutates_file :
    (clientMain ⟨none, Except.ok ⟨200, Except.ok (some (goMarshalRate sampleQuote))⟩,
        none, some ⟨"disk full"⟩⟩ (some ("Dolar: \x7b5.0\x7d"))).exitCode = 1
    ∧ (clientMain ⟨none, Except.ok ⟨200, Except.ok (some (goMarshalRate sampleQuote))⟩,
        none, some ⟨"disk full"⟩⟩ (some ("Dolar: \x7b5.0\x7d"))).stderr
        = [Diag.writeError ⟨"disk full"⟩]
    ∧ (clientMain ⟨none, Except.ok ⟨200, Except.ok (some (goMarshalRate sampleQuote))⟩,
        none, some ⟨"disk full"⟩⟩ (some ("Dolar: \x7b5.0\x7d"))).file
        ≠ some ("Dolar: \x7b5.0\x7d") := by
  refine ⟨rfl, rfl, fun hc => ?_⟩
  have hc2 : ("" : String) = ("Dolar: \x7b5.0\x7d") := Option.some.inj hc
  exact absurd (congrArg String.length hc2) (by decide)

/-- C10 amended: every failing Local Client run prints at least one
diagnostic to the error stream and exits with code 1.  The final content
of `cotacao.txt` depends on where the run failed, and the diagnostic
identifies that point: when the failure is anything other than a
`WriteString` failure (timeout, transport error, non-2xx, body read,
decode, or the `os.Create` call itself), the file is exactly the prior
content `init` — unmutated; when the failure is a `WriteString` failure,
`os.Create` has already truncated the file, so its content is the empty
string — the prior content is lost and failure is not atomic there. -/
theorem client_failure_diag_and_file (env : ClientEnv) (init : Option String)
    (h : (clientMain env init).exitCode ≠ 0) :
    (clientMain env init).exitCode = 1
    ∧ (clientMain env init).stderr ≠ []
    ∧ ((∃ e, (clientMain env init).stderr = [Diag.writeError e]) →
        (clientMain env init).file = some "")
    ∧ (¬ (∃ e, (clientMain env init).stderr = [Diag.writeError e]) →
        (clientMain env init).file = init) := by
  obtain ⟨nre, dr, ce, we⟩ := env
  cases nre with
  | some e => simp [clientMain]
  | none =>
    cases dr with
    | error e => simp [clientMain]
    | ok resp =>
      obtain ⟨sc, br⟩ := resp
      by_cases hsc : sc = 200
      · subst hsc
        cases br with
        | error e => simp [clientMain]
        | ok body =>
          cases hum : goUnmarshalRate body with
          | error e => simp [clientMain, hum]
          | ok rate =>
            cases ce with
            | some e => simp [clientMain, hum]
            | none =>
              cases we with
              | some e => simp [clientMain, hum]
              | none =>
                exfalso
                apply h
                simp [clientMain, hum]
      · simp [clientMain, hsc]

/-- Witness for C10 amended, at two concrete failing runs covering both
branches of the file guarantee: a transport failure (the diagnostic is
not a write error, the absent file stays absent) and a write failure
(the diagnostic is a write error, the file is left truncated empty). -/
theorem client_failure_diag_and_file_witness :
    ((clientMain ⟨some ⟨"context deadline exceeded"⟩,
        Except.error ⟨"context deadline exceeded"⟩, none, none⟩ none).exitCode = 1
     ∧ (clientMain ⟨some ⟨"context deadline exceeded"⟩,
          Except.error ⟨"context deadline exceeded"⟩, none, none⟩ none).stderr ≠ []
     ∧ ((∃ e, (clientMain ⟨some ⟨"context deadline exceeded"⟩,
            Except.error ⟨"context deadline exceeded"⟩, none, none⟩ none).stderr
            = [Diag.writeError e]) →
         (clientMain ⟨some ⟨"context deadline exceeded"⟩,
            Except.error ⟨"context deadline exceeded"⟩, none, none⟩ none).file
           = some "")
     ∧ (¬ (∃ e, (clientMain ⟨some ⟨"context deadline exceeded"⟩,
            Except.error ⟨"context deadline exceeded"⟩, none, none⟩ none).stderr
            = [Diag.writeError e]) →
         (clientMain ⟨some ⟨"context deadline exceeded"⟩,
            Except.error ⟨"context deadline exceeded"⟩, none, none⟩ none).file
           = none))
    ∧ ((clientMain ⟨none, Except.ok ⟨200, Except.ok (some (goMarshalRate sampleQuote))⟩,
          none, some ⟨"disk full"⟩⟩ none).exitCode = 1
       ∧ (clientMain ⟨none, Except.ok ⟨200, Except.ok (some (goMarshalRate sampleQuote))⟩,
            none, some ⟨"disk full"⟩⟩ none).stderr ≠ []
       ∧ ((∃ e, (clientMain ⟨none,
              Except.ok ⟨200, Except.ok (some (goMarshalRate sampleQuote))⟩,
              none, some ⟨"disk full"⟩⟩ none).stderr = [Diag.writeError e]) →
           (clientMain ⟨none, Except.ok ⟨200, Except.ok (some (goMarshalRate sampleQuote))⟩,
              none, some ⟨"disk full"⟩⟩ none).file = some "")
       ∧ (¬ (∃ e, (clientMain ⟨none,
              Except.ok ⟨200, Except.ok (some (goMarshalRate sampleQuote))⟩,
              none, some ⟨"disk full"⟩⟩ none).stderr = [Diag.writeError e]) →
           (clientMain ⟨none, Except.ok ⟨200, Except.ok (some (goMarshalRate sampleQuote))⟩,
              none, some ⟨"disk full"⟩⟩ none).file = none)) :=
  ⟨client_failure_diag_and_file
      ⟨some ⟨"context deadline exceeded"⟩, Except.error ⟨"context deadline exceeded"⟩,
       none, none⟩ none (by decide),
   client_failure_diag_and_file
      ⟨none, Except.ok ⟨200, Except.ok (some (goMarshalRate sampleQuote))⟩,
       none, some ⟨"disk full"⟩⟩ none (by decide)⟩

end DesafioGoExpert
